import Mathlib

/-!
Verification of the rust-ndi repository: a shallow embedding of the
NDI frame-capture drain loop (`receive_ndi_frames` in
examples/bevy_image.rs), the source-discovery loop
(`setup_ndi_receiver` in examples/bevy_image.rs), and the build-time
library-directory selection (`choose_source_dir` in build.rs),
together with proofs of the specified properties.

Video, audio and metadata frames are identified by natural-number ids;
a "release" of a frame is the Rust drop of the corresponding value
(the frame types own native buffers freed on drop), so release
accounting is modelled by tracking which ids have been dropped.
-/

namespace RustNdi

/-- The result of one `receive_capture` call, as matched by the loop in
`receive_ndi_frames`: a video frame, some other successful kind
(audio or metadata, both hit the catch-all `Ok(_)` arm), `None`
(nothing available), or an error. Frames carry an id standing for the
native buffer they own. -/
inductive CaptureResult where
  | video (id : Nat)
  | audio (id : Nat)
  | metadata (id : Nat)
  | none
  | err
deriving DecidableEq, Repr

/-- The constant `max_frames_to_discard` from `receive_ndi_frames`. -/
def max_frames_to_discard : Nat := 6

/-- The state of the drain loop in `receive_ndi_frames` between
iterations, instrumented for release accounting:
`latest_video_frame` and `frame_count` are the two local variables of
the Rust loop; `live` tracks the ids of video frames captured but not
yet dropped; `released` lists the video-frame ids dropped so far, in
drop order; `releasedOther` lists the ids of non-video frames dropped
by the catch-all arm. -/
structure LoopState where
  latest_video_frame : Option Nat
  frame_count : Nat
  live : List Nat
  released : List Nat
  releasedOther : List Nat
deriving DecidableEq, Repr

/-- The loop state at entry to the drain loop: no pending frame,
zero frame count, nothing captured or released. -/
def initState : LoopState :=
  { latest_video_frame := Option.none, frame_count := 0,
    live := [], released := [], releasedOther := [] }

/-- How one iteration of the drain loop ends: continue looping,
leave the loop by `break`, or return from the whole function
(the `Err` arm). -/
inductive StepOut where
  | cont (s : LoopState)
  | brk (s : LoopState)
  | errorReturn (s : LoopState)
deriving DecidableEq, Repr

/-- One iteration of the `loop { match receive_capture(...) { ... } }`
body of `receive_ndi_frames`, given the capture result of this
iteration.  On `Video`: increment `frame_count`; if it now exceeds
`max_frames_to_discard`, assign the new frame to
`latest_video_frame` (the assignment drops the previously pending
frame) and break; otherwise `replace` the pending frame with the new
one and drop the previous one if there was one.  On `None`: break.
On any other `Ok` result: drop it and continue.  On `Err`: return
(the pending frame is dropped as it goes out of scope). -/
def loopStep (s : LoopState) (r : CaptureResult) : StepOut :=
  match r with
  | .video v =>
    let fc := s.frame_count + 1
    let live := s.live ++ [v]
    if fc > max_frames_to_discard then
      match s.latest_video_frame with
      | some prev =>
        .brk { s with latest_video_frame := some v, frame_count := fc,
                      live := live.erase prev, released := s.released ++ [prev] }
      | Option.none =>
        .brk { s with latest_video_frame := some v, frame_count := fc, live := live }
    else
      match s.latest_video_frame with
      | some prev =>
        .cont { s with latest_video_frame := some v, frame_count := fc,
                       live := live.erase prev, released := s.released ++ [prev] }
      | Option.none =>
        .cont { s with latest_video_frame := some v, frame_count := fc, live := live }
  | .audio a => .cont { s with releasedOther := s.releasedOther ++ [a] }
  | .metadata m => .cont { s with releasedOther := s.releasedOther ++ [m] }
  | .none => .brk s
  | .err =>
    match s.latest_video_frame with
    | some prev =>
      .errorReturn { s with latest_video_frame := Option.none,
                            live := s.live.erase prev, released := s.released ++ [prev] }
    | Option.none => .errorReturn s

/-- Run the drain loop against the sequence of results that successive
`receive_capture` calls will produce.  Returns the state at loop exit
together with whether the exit was the `Err` early return and how many
capture calls were consumed; returns `none` if the supplied sequence
is exhausted before the loop exits (the real loop would keep calling). -/
def runLoop : List CaptureResult → LoopState → Option (LoopState × Bool × Nat)
  | [], _ => Option.none
  | r :: rest, s =>
    match loopStep s r with
    | .cont s' => (runLoop rest s').map (fun p => (p.1, p.2.1, p.2.2 + 1))
    | .brk s' => some (s', false, 1)
    | .errorReturn s' => some (s', true, 1)

/-- The observable outcome of one tick of `receive_ndi_frames`:
which frame (if any) reached the image-update path, which video
frames were dropped during the drain loop, which non-video frames
were dropped, whether the tick aborted on a capture error, and how
many capture calls were made. -/
structure TickResult where
  delivered : Option Nat
  discardReleased : List Nat
  releasedOther : List Nat
  errored : Bool
  consumed : Nat
deriving DecidableEq, Repr

/-- One tick of the `receive_ndi_frames` system: run the drain loop
from the initial state; on the `Err` arm the function returns with
nothing delivered (the pending frame was already dropped by the
return); otherwise the pending `latest_video_frame`, if any, is
processed and then dropped by the consumer. -/
def receive_ndi_frames (inputs : List CaptureResult) : Option TickResult :=
  (runLoop inputs initState).map fun p =>
    let s := p.1
    if p.2.1 then
      { delivered := Option.none, discardReleased := s.released,
        releasedOther := s.releasedOther, errored := true, consumed := p.2.2 }
    else
      { delivered := s.latest_video_frame, discardReleased := s.released,
        releasedOther := s.releasedOther, errored := false, consumed := p.2.2 }

/-- All video-frame releases of one tick: the drops issued inside the
drain loop plus the consumer's final `drop(video)` of the delivered
frame. -/
def totalReleased (t : TickResult) : List Nat :=
  t.discardReleased ++ t.delivered.toList

/-- The ids of the video frames among a sequence of capture results,
in capture order. -/
def videoIds (l : List CaptureResult) : List Nat :=
  l.filterMap fun r =>
    match r with
    | .video v => some v
    | _ => Option.none

/-- Whether a capture result is a video frame. -/
def isVideo : CaptureResult → Bool
  | .video _ => true
  | _ => false

/-- The id of the most recent video frame in a capture sequence, or
the given pending id if the sequence contains no video frame. -/
def lastVideo (init : Option Nat) : List CaptureResult → Option Nat
  | [] => init
  | .video v :: rest => lastVideo (some v) rest
  | _ :: rest => lastVideo init rest

/-- Run the drain loop through a sequence of capture results all of
which keep it looping; `none` if any of them makes the loop exit.
Used to describe the loop state at the moment a later result arrives. -/
def driveLoop (s : LoopState) : List CaptureResult → Option LoopState
  | [] => some s
  | r :: rest =>
    match loopStep s r with
    | .cont s' => driveLoop s' rest
    | _ => Option.none

/-- Loop states reachable at iteration boundaries of the drain loop
of `receive_ndi_frames`, starting from its initial state. -/
inductive Reachable : LoopState → Prop
  | init : Reachable initState
  | step {s s' : LoopState} {r : CaptureResult} :
      Reachable s → loopStep s r = .cont s' → Reachable s'

/-- The loop state carried by a step outcome, whichever way the
iteration ended. -/
def outState : StepOut → LoopState
  | .cont s => s
  | .brk s => s
  | .errorReturn s => s

/-- The accounting invariant of the drain loop: the ids currently
held unreleased are exactly the pending `latest_video_frame`. -/
def LiveInv (s : LoopState) : Prop :=
  s.live = s.latest_video_frame.toList

/-- The capture sequence of a synthetic producer that emits video
frames with ids `0, ..., k-1` and is then exhausted (the next
capture returns `None`). -/
def producerRun (k : Nat) : List CaptureResult :=
  (List.range k).map .video ++ [.none]

end RustNdi

namespace RustNdi

/-- A discoverable NDI source as used by `setup_ndi_receiver`:
`sources[0].clone()` is what the discovery loop returns. -/
structure SourceDescriptor where
  name : String
  urlAddress : String
deriving DecidableEq, Repr

/-- One iteration's inputs to the discovery loop of
`setup_ndi_receiver`: the boolean returned by
`finder.wait_for_sources(1000)` (ignored by the code) and the
snapshot returned by `finder.get_current_sources()`. -/
structure FinderIter where
  waitChanged : Bool
  snapshot : List SourceDescriptor
deriving DecidableEq, Repr

/-- The discovery loop of `setup_ndi_receiver`: each iteration waits
for sources, takes a snapshot, and if the snapshot is non-empty
breaks with its first element; otherwise it loops again.  Returns
`none` if the supplied iteration sequence is exhausted with every
snapshot empty (the real loop would keep going). -/
def discoverLoop : List FinderIter → Option SourceDescriptor
  | [] => Option.none
  | it :: rest =>
    match it.snapshot with
    | [] => discoverLoop rest
    | src :: _ => some src

end RustNdi

namespace RustNdi

/-- The environment visible to `choose_source_dir` in build.rs: the
optional value of the `NDI_RUNTIME_DIR_V3` environment variable, the
value of `CARGO_MANIFEST_DIR`, and which paths exist on the
filesystem. -/
structure BuildEnv where
  ndi_runtime_dir_v3 : Option String
  cargo_manifest_dir : String
  pathExists : String → Bool

/-- Path join, `Path::new(dir).join(seg)`, for the string paths used here. -/
def pathJoin (dir seg : String) : String := dir ++ "/" ++ seg

/-- The function `choose_source_dir` from build.rs: if `NDI_RUNTIME_DIR_V3` is set
and the path it names exists, return it; otherwise if the `lib`
folder under `CARGO_MANIFEST_DIR` exists, return that; otherwise
return `None`. -/
def choose_source_dir (env : BuildEnv) : Option String :=
  match env.ndi_runtime_dir_v3 with
  | some path =>
    if env.pathExists path then some path
    else
      let p := pathJoin env.cargo_manifest_dir "lib"
      if env.pathExists p then some p else Option.none
  | Option.none =>
    let p := pathJoin env.cargo_manifest_dir "lib"
    if env.pathExists p then some p else Option.none

end RustNdi

namespace RustNdi

@[simp]
theorem videoIds_nil : videoIds [] = [] := rfl

@[simp]
theorem videoIds_video (v : Nat) (l : List CaptureResult) :
    videoIds (.video v :: l) = v :: videoIds l := rfl

@[simp]
theorem videoIds_audio (a : Nat) (l : List CaptureResult) :
    videoIds (.audio a :: l) = videoIds l := rfl

@[simp]
theorem videoIds_metadata (m : Nat) (l : List CaptureResult) :
    videoIds (.metadata m :: l) = videoIds l := rfl

@[simp]
theorem videoIds_none (l : List CaptureResult) :
    videoIds (.none :: l) = videoIds l := rfl

@[simp]
theorem videoIds_err (l : List CaptureResult) :
    videoIds (.err :: l) = videoIds l := rfl

@[simp]
theorem videoIds_append (l₁ l₂ : List CaptureResult) :
    videoIds (l₁ ++ l₂) = videoIds l₁ ++ videoIds l₂ := by
  simp [videoIds]

theorem videoIds_cons (r : CaptureResult) (l : List CaptureResult) :
    videoIds (r :: l) = videoIds [r] ++ videoIds l := by
  rw [← videoIds_append]
  rfl

/-- One drain-loop iteration preserves the release ledger: the video
ids dropped so far together with the pending id always grow by
exactly the video ids consumed by the iteration. -/
theorem outState_loopStep_released (s : LoopState) (r : CaptureResult) :
    (outState (loopStep s r)).released
        ++ (outState (loopStep s r)).latest_video_frame.toList
      = s.released ++ s.latest_video_frame.toList ++ videoIds [r] := by
  cases r with
  | video v =>
    by_cases hfc : s.frame_count + 1 > max_frames_to_discard <;>
      cases hl : s.latest_video_frame <;>
        simp [loopStep, hfc, hl, outState, videoIds]
  | audio a => simp [loopStep, outState]
  | metadata m => simp [loopStep, outState]
  | none => simp [loopStep, outState]
  | err =>
    cases hl : s.latest_video_frame <;> simp [loopStep, hl, outState]

/-- After the error-return arm, no frame is pending (the pending
frame was dropped by the early return). -/
theorem loopStep_errorReturn_latest (s : LoopState) (r : CaptureResult) (s' : LoopState)
    (h : loopStep s r = .errorReturn s') : s'.latest_video_frame = Option.none := by
  cases r with
  | video v =>
    by_cases hfc : s.frame_count + 1 > max_frames_to_discard <;>
      cases hl : s.latest_video_frame <;>
        simp [loopStep, hfc, hl] at h
  | audio a => simp [loopStep] at h
  | metadata m => simp [loopStep] at h
  | none => simp [loopStep] at h
  | err =>
    cases hl : s.latest_video_frame with
    | some prev => simp [loopStep, hl] at h; rw [← h]
    | none => simp [loopStep, hl] at h; rw [← h]; exact hl

/-- Release accounting for a full run of the drain loop: the dropped
video ids plus the pending id at exit equal the initial ledger plus
every video id among the consumed capture results; moreover an
error exit leaves no pending frame. -/
theorem runLoop_acct (inputs : List CaptureResult) :
    ∀ (s s' : LoopState) (e : Bool) (n : Nat),
      runLoop inputs s = some (s', e, n) →
      s'.released ++ s'.latest_video_frame.toList
          = s.released ++ s.latest_video_frame.toList ++ videoIds (inputs.take n)
        ∧ (e = true → s'.latest_video_frame = Option.none) := by
  induction inputs with
  | nil => intro s s' e n h; simp [runLoop] at h
  | cons r rest ih =>
    intro s s' e n h
    have hstepacct := outState_loopStep_released s r
    cases hstep : loopStep s r with
    | cont s₁ =>
      simp only [runLoop, hstep] at h
      rw [Option.map_eq_some'] at h
      obtain ⟨⟨s₂, e₂, n₂⟩, hrun, heq⟩ := h
      simp only [Prod.mk.injEq] at heq
      obtain ⟨rfl, rfl, rfl⟩ := heq
      obtain ⟨hA, hE⟩ := ih s₁ s₂ e₂ n₂ hrun
      rw [hstep] at hstepacct
      simp only [outState] at hstepacct
      refine ⟨?_, hE⟩
      rw [List.take_succ_cons, hA, hstepacct, videoIds_cons r (List.take n₂ rest)]
      simp [List.append_assoc]
    | brk s₁ =>
      simp only [runLoop, hstep, Option.some.injEq, Prod.mk.injEq] at h
      obtain ⟨rfl, rfl, rfl⟩ := h
      rw [hstep] at hstepacct
      simp only [outState] at hstepacct
      refine ⟨?_, by simp⟩
      simpa using hstepacct
    | errorReturn s₁ =>
      simp only [runLoop, hstep, Option.some.injEq, Prod.mk.injEq] at h
      obtain ⟨rfl, rfl, rfl⟩ := h
      rw [hstep] at hstepacct
      simp only [outState] at hstepacct
      refine ⟨by simpa using hstepacct, fun _ => ?_⟩
      exact loopStep_errorReturn_latest s r s₁ hstep

/-- Claim C1: over one tick of the capture loop, the video-frame
releases issued (drops of discarded pending frames plus the final
drop of the delivered frame) are exactly the video frames obtained
from `receive_capture` in that tick, id for id and in order — in
particular the counts are equal, no captured video frame is leaked
and none is released twice. -/
theorem receive_total_releases_eq_videos_obtained
    (inputs : List CaptureResult) (t : TickResult)
    (h : receive_ndi_frames inputs = some t) :
    totalReleased t = videoIds (inputs.take t.consumed)
      ∧ (totalReleased t).length = (videoIds (inputs.take t.consumed)).length := by
  unfold receive_ndi_frames at h
  rw [Option.map_eq_some'] at h
  obtain ⟨⟨s, e, n⟩, hrun, heq⟩ := h
  obtain ⟨hacct, herr⟩ := runLoop_acct inputs initState s e n hrun
  simp only [initState, List.nil_append, Option.toList_none] at hacct
  cases e with
  | false =>
    simp only [Bool.false_eq_true, if_false] at heq
    subst heq
    have h1 : totalReleased
        { delivered := s.latest_video_frame, discardReleased := s.released,
          releasedOther := s.releasedOther, errored := false, consumed := n }
          = videoIds (inputs.take n) := by
      simpa [totalReleased] using hacct
    exact ⟨h1, by rw [h1]⟩
  | true =>
    simp only [if_true] at heq
    subst heq
    have hl := herr rfl
    rw [hl] at hacct
    have h1 : totalReleased
        { delivered := Option.none, discardReleased := s.released,
          releasedOther := s.releasedOther, errored := true, consumed := n }
          = videoIds (inputs.take n) := by
      simpa [totalReleased] using hacct
    exact ⟨h1, by rw [h1]⟩

/-- Witness for claim C1 at the capture sequence
video 0, video 1, audio 5, None. -/
theorem receive_total_releases_eq_videos_obtained_witness :
    totalReleased { delivered := some 1, discardReleased := [0], releasedOther := [5],
                    errored := false, consumed := 4 }
        = videoIds (([.video 0, .video 1, .audio 5, .none] : List CaptureResult).take 4)
      ∧ (totalReleased { delivered := some 1, discardReleased := [0], releasedOther := [5],
                         errored := false, consumed := 4 }).length
          = (videoIds (([.video 0, .video 1, .audio 5, .none] : List CaptureResult).take 4)).length :=
  receive_total_releases_eq_videos_obtained [.video 0, .video 1, .audio 5, .none] _ rfl

end RustNdi

namespace RustNdi

/-- One drain-loop iteration preserves the live-set invariant: the
unreleased video frames are exactly the pending one. -/
theorem loopStep_liveInv (s : LoopState) (r : CaptureResult) (h : LiveInv s) :
    LiveInv (outState (loopStep s r)) := by
  unfold LiveInv at h ⊢
  cases r with
  | video v =>
    by_cases hfc : s.frame_count + 1 > max_frames_to_discard <;>
      cases hl : s.latest_video_frame <;>
        rw [hl] at h <;>
          simp [loopStep, hfc, hl, outState, h, List.erase_cons_head]
  | audio a => simpa [loopStep, outState] using h
  | metadata m => simpa [loopStep, outState] using h
  | none => simpa [loopStep, outState] using h
  | err =>
    cases hl : s.latest_video_frame <;>
      rw [hl] at h <;>
        simp [loopStep, hl, outState, h, List.erase_cons_head]

/-- The live-set invariant carries over a continuing iteration. -/
theorem loopStep_cont_liveInv {s s' : LoopState} {r : CaptureResult}
    (hstep : loopStep s r = .cont s') (h : LiveInv s) : LiveInv s' := by
  have hout := loopStep_liveInv s r h
  rw [hstep] at hout
  simpa [outState] using hout

/-- Every state at an iteration boundary of the drain loop satisfies
the live-set invariant. -/
theorem reachable_liveInv (s : LoopState) (h : Reachable s) : LiveInv s := by
  induction h with
  | init => rfl
  | step hr hstep ih => exact loopStep_cont_liveInv hstep ih

/-- Claim C3: at every loop-iteration boundary of the capture drain
loop, at most one video frame is held unreleased, namely the pending
`latest_video_frame`; and whenever a pending frame is replaced by a
newer one, the replaced frame is dropped in that same iteration (it
is recorded released and only the new frame stays live). -/
theorem drain_at_most_one_live (s : LoopState) (h : Reachable s) :
    (s.live = s.latest_video_frame.toList ∧ s.live.length ≤ 1)
      ∧ ∀ (v prev : Nat) (s' : LoopState), s.latest_video_frame = some prev →
          loopStep s (.video v) = .cont s' →
          s'.released = s.released ++ [prev] ∧ s'.live = [v] := by
  have hinv := reachable_liveInv s h
  refine ⟨⟨hinv, ?_⟩, ?_⟩
  · rw [hinv]; cases s.latest_video_frame <;> simp
  · intro v prev s' hl hstep
    by_cases hfc : s.frame_count + 1 > max_frames_to_discard
    · simp [loopStep, hfc, hl] at hstep
    · simp only [loopStep, hfc, hl, if_false, if_neg hfc, StepOut.cont.injEq] at hstep
      subst hstep
      refine ⟨rfl, ?_⟩
      unfold LiveInv at hinv
      rw [hinv, hl]
      simp [List.erase_cons_head]

/-- Witness for claim C3 at the state reached after capturing one
video frame. -/
theorem drain_at_most_one_live_witness :
    (({ latest_video_frame := some 3, frame_count := 1, live := [3],
        released := [], releasedOther := [] } : LoopState).live
        = ({ latest_video_frame := some 3, frame_count := 1, live := [3],
             released := [], releasedOther := [] } : LoopState).latest_video_frame.toList
      ∧ (({ latest_video_frame := some 3, frame_count := 1, live := [3],
            released := [], releasedOther := [] } : LoopState).live).length ≤ 1)
      ∧ ∀ (v prev : Nat) (s' : LoopState),
          ({ latest_video_frame := some 3, frame_count := 1, live := [3],
             released := [], releasedOther := [] } : LoopState).latest_video_frame = some prev →
          loopStep { latest_video_frame := some 3, frame_count := 1, live := [3],
                     released := [], releasedOther := [] } (.video v) = .cont s' →
          s'.released = ({ latest_video_frame := some 3, frame_count := 1, live := [3],
                           released := [], releasedOther := [] } : LoopState).released ++ [prev]
            ∧ s'.live = [v] :=
  drain_at_most_one_live
    { latest_video_frame := some 3, frame_count := 1, live := [3],
      released := [], releasedOther := [] }
    (@Reachable.step initState
      { latest_video_frame := some 3, frame_count := 1, live := [3],
        released := [], releasedOther := [] }
      (CaptureResult.video 3) Reachable.init (by decide))

/-- The pending frame after a continuing iteration is the most recent
video frame so far. -/
theorem loopStep_cont_latest (s : LoopState) (r : CaptureResult) (s₁ : LoopState)
    (h : loopStep s r = .cont s₁) :
    s₁.latest_video_frame = lastVideo s.latest_video_frame [r] := by
  cases r with
  | video v =>
    by_cases hfc : s.frame_count + 1 > max_frames_to_discard <;>
      cases hl : s.latest_video_frame <;>
        simp only [loopStep, hfc, hl, if_true, if_false, if_pos, if_neg,
          StepOut.cont.injEq, reduceCtorEq] at h <;>
          first
          | exact absurd h (by simp)
          | (subst h; rfl)
  | audio a =>
    simp only [loopStep, StepOut.cont.injEq] at h
    subst h; rfl
  | metadata m =>
    simp only [loopStep, StepOut.cont.injEq] at h
    subst h; rfl
  | none => simp [loopStep] at h
  | err => cases hl : s.latest_video_frame <;> simp [loopStep, hl] at h

theorem lastVideo_cons (init : Option Nat) (r : CaptureResult) (rest : List CaptureResult) :
    lastVideo init (r :: rest) = lastVideo (lastVideo init [r]) rest := by
  cases r <;> rfl

/-- Driving the loop through continuing iterations tracks the most
recent video frame in the pending slot. -/
theorem driveLoop_latest (pre : List CaptureResult) :
    ∀ (s s' : LoopState), driveLoop s pre = some s' →
      s'.latest_video_frame = lastVideo s.latest_video_frame pre := by
  induction pre with
  | nil =>
    intro s s' h
    simp only [driveLoop, Option.some.injEq] at h
    subst h; rfl
  | cons r rest ih =>
    intro s s' h
    cases hstep : loopStep s r with
    | cont s₁ =>
      simp only [driveLoop, hstep] at h
      rw [ih s₁ s' h, lastVideo_cons, loopStep_cont_latest s r s₁ hstep]
    | brk s₁ => simp [driveLoop, hstep] at h
    | errorReturn s₁ => simp [driveLoop, hstep] at h

/-- Release accounting along continuing iterations. -/
theorem driveLoop_acct (pre : List CaptureResult) :
    ∀ (s s' : LoopState), driveLoop s pre = some s' →
      s'.released ++ s'.latest_video_frame.toList
        = s.released ++ s.latest_video_frame.toList ++ videoIds pre := by
  induction pre with
  | nil =>
    intro s s' h
    simp only [driveLoop, Option.some.injEq] at h
    subst h; simp
  | cons r rest ih =>
    intro s s' h
    cases hstep : loopStep s r with
    | cont s₁ =>
      simp only [driveLoop, hstep] at h
      have hstepacct := outState_loopStep_released s r
      rw [hstep] at hstepacct
      simp only [outState] at hstepacct
      rw [ih s₁ s' h, hstepacct, videoIds_cons r rest]
      simp [List.append_assoc]
    | brk s₁ => simp [driveLoop, hstep] at h
    | errorReturn s₁ => simp [driveLoop, hstep] at h

/-- A run of the drain loop splits at any point the loop is still
looping: the capture calls consumed afterwards add to those of the
driven part. -/
theorem runLoop_append (pre : List CaptureResult) :
    ∀ (rest : List CaptureResult) (s s₀ : LoopState), driveLoop s pre = some s₀ →
      runLoop (pre ++ rest) s
        = (runLoop rest s₀).map (fun p => (p.1, p.2.1, p.2.2 + pre.length)) := by
  induction pre with
  | nil =>
    intro rest s s₀ h
    simp only [driveLoop, Option.some.injEq] at h
    subst h
    cases hr : runLoop rest s <;> simp [hr]
  | cons r pre ih =>
    intro rest s s₀ h
    cases hstep : loopStep s r with
    | cont s₁ =>
      simp only [driveLoop, hstep] at h
      have hrest := ih rest s₁ s₀ h
      have hrun : runLoop ((r :: pre) ++ rest) s
          = (runLoop (pre ++ rest) s₁).map (fun p => (p.1, p.2.1, p.2.2 + 1)) := by
        rw [List.cons_append]
        simp [runLoop, hstep]
      rw [hrun, hrest, Option.map_map, List.length_cons]
      rfl
    | brk s₁ => simp [driveLoop, hstep] at h
    | errorReturn s₁ => simp [driveLoop, hstep] at h

end RustNdi

namespace RustNdi

/-- Claim C4: when a capture call returns `None` while the drain loop
is still looping, the loop stops there (exactly one more capture call
is consumed); the frame delivered is the pending one, which is the
most recently captured video frame of the tick, and if no video
frame was captured nothing is delivered. -/
theorem drain_stops_on_none (pre rest : List CaptureResult) (s : LoopState)
    (h : driveLoop initState pre = some s) :
    receive_ndi_frames (pre ++ .none :: rest)
        = some { delivered := s.latest_video_frame, discardReleased := s.released,
                 releasedOther := s.releasedOther, errored := false,
                 consumed := pre.length + 1 }
      ∧ s.latest_video_frame = lastVideo Option.none pre := by
  have hdec := runLoop_append pre (.none :: rest) initState s h
  have hlast := driveLoop_latest pre initState s h
  refine ⟨?_, by simpa [initState] using hlast⟩
  have hone : runLoop (.none :: rest) s = some (s, false, 1) := by
    simp [runLoop, loopStep]
  unfold receive_ndi_frames
  rw [hdec, hone]
  simp [Nat.add_comm]

/-- Witness for claim C4 at the capture sequence
video 0, audio 7, video 1, None. -/
theorem drain_stops_on_none_witness :
    (receive_ndi_frames ([.video 0, .audio 7, .video 1] ++ .none :: [])
        = some { delivered := ({ latest_video_frame := some 1, frame_count := 2, live := [1],
                                 released := [0], releasedOther := [7] } : LoopState).latest_video_frame,
                 discardReleased := ({ latest_video_frame := some 1, frame_count := 2, live := [1],
                                       released := [0], releasedOther := [7] } : LoopState).released,
                 releasedOther := ({ latest_video_frame := some 1, frame_count := 2, live := [1],
                                     released := [0], releasedOther := [7] } : LoopState).releasedOther,
                 errored := false,
                 consumed := ([CaptureResult.video 0, .audio 7, .video 1] : List CaptureResult).length + 1 })
      ∧ ({ latest_video_frame := some 1, frame_count := 2, live := [1],
           released := [0], releasedOther := [7] } : LoopState).latest_video_frame
          = lastVideo Option.none [.video 0, .audio 7, .video 1] :=
  drain_stops_on_none [.video 0, .audio 7, .video 1] []
    { latest_video_frame := some 1, frame_count := 2, live := [1],
      released := [0], releasedOther := [7] } (by decide)

/-- Claim C6: when a capture call returns an error while the drain
loop is still looping, the tick aborts: the error is surfaced, no
frame is delivered to the image-update path, and the pending video
frame (if any) is released — so every video frame obtained in the
tick has been released. -/
theorem drain_aborts_on_error (pre rest : List CaptureResult) (s : LoopState)
    (h : driveLoop initState pre = some s) :
    receive_ndi_frames (pre ++ .err :: rest)
        = some { delivered := Option.none,
                 discardReleased := s.released ++ s.latest_video_frame.toList,
                 releasedOther := s.releasedOther, errored := true,
                 consumed := pre.length + 1 }
      ∧ s.released ++ s.latest_video_frame.toList = videoIds pre := by
  have hdec := runLoop_append pre (.err :: rest) initState s h
  have hacct := driveLoop_acct pre initState s h
  refine ⟨?_, by simpa [initState] using hacct⟩
  cases hl : s.latest_video_frame with
  | some prev =>
    have hone : runLoop (.err :: rest) s
        = some ({ s with latest_video_frame := Option.none,
                         live := s.live.erase prev,
                         released := s.released ++ [prev] }, true, 1) := by
      simp [runLoop, loopStep, hl]
    unfold receive_ndi_frames
    rw [hdec, hone]
    simp [Nat.add_comm]
  | none =>
    have hone : runLoop (.err :: rest) s = some (s, true, 1) := by
      simp [runLoop, loopStep, hl]
    unfold receive_ndi_frames
    rw [hdec, hone]
    simp [Nat.add_comm]

/-- Witness for claim C6 at the capture sequence
video 0, video 1, Err. -/
theorem drain_aborts_on_error_witness :
    (receive_ndi_frames ([.video 0, .video 1] ++ .err :: [])
        = some { delivered := Option.none,
                 discardReleased :=
                   ({ latest_video_frame := some 1, frame_count := 2, live := [1],
                      released := [0], releasedOther := [] } : LoopState).released
                     ++ ({ latest_video_frame := some 1, frame_count := 2, live := [1],
                           released := [0], releasedOther := [] } : LoopState).latest_video_frame.toList,
                 releasedOther := ({ latest_video_frame := some 1, frame_count := 2, live := [1],
                                     released := [0], releasedOther := [] } : LoopState).releasedOther,
                 errored := true,
                 consumed := ([CaptureResult.video 0, .video 1] : List CaptureResult).length + 1 })
      ∧ ({ latest_video_frame := some 1, frame_count := 2, live := [1],
           released := [0], releasedOther := [] } : LoopState).released
          ++ ({ latest_video_frame := some 1, frame_count := 2, live := [1],
                released := [0], releasedOther := [] } : LoopState).latest_video_frame.toList
        = videoIds [.video 0, .video 1] :=
  drain_aborts_on_error [.video 0, .video 1] []
    { latest_video_frame := some 1, frame_count := 2, live := [1],
      released := [0], releasedOther := [] } (by decide)

end RustNdi

namespace RustNdi

theorem getLast?_cons_or {α : Type} (a : α) (l : List α) :
    (a :: l).getLast? = l.getLast?.or (some a) := by
  induction l generalizing a with
  | nil => rfl
  | cons b t ih =>
    rw [List.getLast?_cons_cons, ih b, Option.or_assoc]
    cases t.getLast? <;> rfl

theorem getLast?_cons_of_ne {α : Type} (a : α) {l : List α} (h : l ≠ []) :
    (a :: l).getLast? = l.getLast? := by
  rw [getLast?_cons_or]
  obtain ⟨x, hx⟩ := Option.isSome_iff_exists.mp (List.getLast?_isSome.mpr h)
  rw [hx]
  rfl

theorem range_getLast? (k : Nat) :
    (List.range k).getLast? = if k = 0 then Option.none else some (k - 1) := by
  cases k with
  | zero => rfl
  | succ n => rw [List.range_succ, List.getLast?_concat]; simp

/-- Running the drain loop on video frames that stay below the
discard threshold, followed by exhaustion: every frame is obtained,
the pending slot holds the last one, the earlier ones were dropped
on replacement, and the loop stops at the `None`. -/
theorem runLoop_subThreshold (ids : List Nat) :
    ∀ s : LoopState, s.frame_count + ids.length ≤ max_frames_to_discard →
      ∃ s', runLoop (ids.map .video ++ [.none]) s = some (s', false, ids.length + 1)
        ∧ s'.released ++ s'.latest_video_frame.toList
            = s.released ++ s.latest_video_frame.toList ++ ids
        ∧ s'.latest_video_frame = ids.getLast?.or s.latest_video_frame
        ∧ s'.releasedOther = s.releasedOther := by
  induction ids with
  | nil =>
    intro s _
    refine ⟨s, ?_, by simp, by simp [Option.none_or], rfl⟩
    simp [runLoop, loopStep]
  | cons v ids ih =>
    intro s hle
    have hfc : ¬ (s.frame_count + 1 > max_frames_to_discard) := by
      simp only [List.length_cons, max_frames_to_discard] at hle ⊢
      omega
    have hle' : s.frame_count + 1 + ids.length ≤ max_frames_to_discard := by
      simp only [List.length_cons] at hle
      omega
    cases hl : s.latest_video_frame with
    | some prev =>
      have hstep : loopStep s (.video v)
          = .cont { s with latest_video_frame := some v, frame_count := s.frame_count + 1,
                           live := (s.live ++ [v]).erase prev,
                           released := s.released ++ [prev] } := by
        simp [loopStep, hfc, hl]
      obtain ⟨s', hrun, hacct, hlast, hoth⟩ :=
        ih { s with latest_video_frame := some v, frame_count := s.frame_count + 1,
                    live := (s.live ++ [v]).erase prev,
                    released := s.released ++ [prev] } hle'
      refine ⟨s', ?_, ?_, ?_, hoth⟩
      · have hcons : (v :: ids).map CaptureResult.video ++ [CaptureResult.none]
            = .video v :: (ids.map .video ++ [.none]) := by simp
        rw [hcons]
        simp [runLoop, hstep, hrun, List.length_cons]
      · rw [hacct]
        simp [List.append_assoc]
      · rw [hlast, getLast?_cons_or, Option.or_assoc]
        rfl
    | none =>
      have hstep : loopStep s (.video v)
          = .cont { s with latest_video_frame := some v, frame_count := s.frame_count + 1,
                           live := s.live ++ [v] } := by
        simp [loopStep, hfc, hl]
      obtain ⟨s', hrun, hacct, hlast, hoth⟩ :=
        ih { s with latest_video_frame := some v, frame_count := s.frame_count + 1,
                    live := s.live ++ [v] } hle'
      refine ⟨s', ?_, ?_, ?_, hoth⟩
      · have hcons : (v :: ids).map CaptureResult.video ++ [CaptureResult.none]
            = .video v :: (ids.map .video ++ [.none]) := by simp
        rw [hcons]
        simp [runLoop, hstep, hrun, List.length_cons]
      · rw [hacct]
        simp [List.append_assoc]
      · rw [hlast, getLast?_cons_or, Option.or_assoc]
        rfl

/-- Running the drain loop on enough video frames to hit the discard
threshold: at the frame that takes the count past
`max_frames_to_discard` the loop breaks immediately, keeping that
frame pending, regardless of what the producer would supply next. -/
theorem runLoop_overThreshold (ids : List Nat) :
    ∀ (s : LoopState) (rest : List CaptureResult), ids ≠ [] →
      s.frame_count + ids.length = max_frames_to_discard + 1 →
      ∃ s', runLoop (ids.map .video ++ rest) s = some (s', false, ids.length)
        ∧ s'.released ++ s'.latest_video_frame.toList
            = s.released ++ s.latest_video_frame.toList ++ ids
        ∧ s'.latest_video_frame = ids.getLast?
        ∧ s'.releasedOther = s.releasedOther := by
  induction ids with
  | nil => intro s rest hne _; exact absurd rfl hne
  | cons v ids ih =>
    intro s rest _ hfc
    by_cases hnil : ids = []
    · subst hnil
      have hgt : s.frame_count + 1 > max_frames_to_discard := by
        simp only [List.length_cons, List.length_nil, max_frames_to_discard] at hfc ⊢
        omega
      cases hl : s.latest_video_frame with
      | some prev =>
        refine ⟨{ s with latest_video_frame := some v, frame_count := s.frame_count + 1,
                         live := (s.live ++ [v]).erase prev,
                         released := s.released ++ [prev] }, ?_, ?_, rfl, rfl⟩
        · simp [runLoop, loopStep, hgt, hl]
        · simp [List.append_assoc]
      | none =>
        refine ⟨{ s with latest_video_frame := some v, frame_count := s.frame_count + 1,
                         live := s.live ++ [v] }, ?_, ?_, rfl, rfl⟩
        · simp [runLoop, loopStep, hgt, hl]
        · simp
    · have hlen1 : 1 ≤ ids.length := by
        have := List.length_pos.mpr hnil
        omega
      have hfc1 : ¬ (s.frame_count + 1 > max_frames_to_discard) := by
        simp only [List.length_cons, max_frames_to_discard] at hfc ⊢
        omega
      have hfc' : s.frame_count + 1 + ids.length = max_frames_to_discard + 1 := by
        simp only [List.length_cons] at hfc
        omega
      cases hl : s.latest_video_frame with
      | some prev =>
        have hstep : loopStep s (.video v)
            = .cont { s with latest_video_frame := some v, frame_count := s.frame_count + 1,
                             live := (s.live ++ [v]).erase prev,
                             released := s.released ++ [prev] } := by
          simp [loopStep, hfc1, hl]
        obtain ⟨s', hrun, hacct, hlast, hoth⟩ :=
          ih { s with latest_video_frame := some v, frame_count := s.frame_count + 1,
                      live := (s.live ++ [v]).erase prev,
                      released := s.released ++ [prev] } rest hnil hfc'
        refine ⟨s', ?_, ?_, ?_, hoth⟩
        · have hcons : (v :: ids).map CaptureResult.video ++ rest
              = .video v :: (ids.map .video ++ rest) := by simp
          rw [hcons]
          simp [runLoop, hstep, hrun, List.length_cons]
        · rw [hacct]
          simp [List.append_assoc]
        · rw [hlast, getLast?_cons_of_ne v hnil]
      | none =>
        have hstep : loopStep s (.video v)
            = .cont { s with latest_video_frame := some v, frame_count := s.frame_count + 1,
                             live := s.live ++ [v] } := by
          simp [loopStep, hfc1, hl]
        obtain ⟨s', hrun, hacct, hlast, hoth⟩ :=
          ih { s with latest_video_frame := some v, frame_count := s.frame_count + 1,
                      live := s.live ++ [v] } rest hnil hfc'
        refine ⟨s', ?_, ?_, ?_, hoth⟩
        · have hcons : (v :: ids).map CaptureResult.video ++ rest
              = .video v :: (ids.map .video ++ rest) := by simp
          rw [hcons]
          simp [runLoop, hstep, hrun, List.length_cons]
        · rw [hacct]
          simp [List.append_assoc]
        · rw [hlast, getLast?_cons_of_ne v hnil]

end RustNdi

namespace RustNdi

/-- Counterexample to claim C2 at k = 1: the producer emits one video
frame and is then exhausted; the tick delivers that frame and issues
no discard release at all, so the discard-release count is 0, not
min(1, max_frames_to_discard) = 1 as the claim demands. -/
theorem producer_discard_count_counterexample :
    receive_ndi_frames (producerRun 1)
        = some { delivered := some 0, discardReleased := [], releasedOther := [],
                 errored := false, consumed := 2 }
      ∧ ({ delivered := some 0, discardReleased := [], releasedOther := [],
           errored := false, consumed := 2 } : TickResult).discardReleased.length
          ≠ min 1 max_frames_to_discard := by
  decide

/-- Claim C2 (amended): when the producer emits exactly k video
frames before returning `None`, the tick issues exactly
min(k-1, max_frames_to_discard) discard releases (0 when k = 0, with
truncated subtraction), and a delivered frame owing exactly one
further release to the consumer exists precisely when k >= 1. -/
theorem producerRun_spec (k : Nat) :
    ∃ t, receive_ndi_frames (producerRun k) = some t
      ∧ t.errored = false
      ∧ t.discardReleased.length = min (k - 1) max_frames_to_discard
      ∧ t.delivered = (if k = 0 then Option.none else some (min (k - 1) max_frames_to_discard))
      ∧ t.releasedOther = []
      ∧ t.consumed = min (k + 1) (max_frames_to_discard + 1) := by
  by_cases hk : k ≤ max_frames_to_discard
  · obtain ⟨s', hrun, hacct, hlast, hoth⟩ :=
      runLoop_subThreshold (List.range k) initState (by simpa [initState] using hk)
    have hrcv : receive_ndi_frames (producerRun k)
        = some { delivered := s'.latest_video_frame, discardReleased := s'.released,
                 releasedOther := s'.releasedOther, errored := false,
                 consumed := (List.range k).length + 1 } := by
      unfold receive_ndi_frames producerRun
      rw [hrun]
      rfl
    simp only [initState, List.nil_append, Option.toList_none, List.append_nil] at hacct
    have hoth' : s'.releasedOther = [] := by simpa [initState] using hoth
    have hlast' : s'.latest_video_frame = (List.range k).getLast? := by
      rw [hlast]
      cases (List.range k).getLast? <;> rfl
    cases k with
    | zero =>
      have hl0 : s'.latest_video_frame = Option.none := by rw [hlast']; rfl
      have hr0 : s'.released = [] := by
        have h := hacct
        rw [hl0] at h
        simpa using h
      refine ⟨_, hrcv, rfl, ?_, ?_, hoth', ?_⟩
      · rw [hr0]; rfl
      · rw [hl0]; rfl
      · rfl
    | succ m =>
      have hm : m + 1 ≤ max_frames_to_discard := hk
      have hl1 : s'.latest_video_frame = some m := by
        rw [hlast', range_getLast?]
        rfl
      have hr1 : s'.released = List.range m := by
        have h2 : List.range (m + 1) = List.range m ++ [m] := List.range_succ m
        have h3 : s'.released ++ [m] = List.range (m + 1) := by
          rw [← hacct, hl1]
          rfl
        rw [h2] at h3
        exact List.append_cancel_right h3
      refine ⟨_, hrcv, rfl, ?_, ?_, hoth', ?_⟩
      · rw [hr1]
        simp only [List.length_range, max_frames_to_discard] at hm ⊢
        omega
      · rw [hl1, if_neg (Nat.succ_ne_zero m)]
        have hmin : min (m + 1 - 1) max_frames_to_discard = m := by
          simp only [max_frames_to_discard] at hm ⊢
          omega
        rw [hmin]
      · simp only [List.length_range, max_frames_to_discard] at hm ⊢
        omega
  · have h7 : max_frames_to_discard + 1 ≤ k := by omega
    obtain ⟨s', hrun, hacct, hlast, hoth⟩ :=
      runLoop_overThreshold (List.range (max_frames_to_discard + 1)) initState
        (((List.range k).drop (max_frames_to_discard + 1)).map .video ++ [.none])
        (by decide) (by simp [initState])
    have hsplit : producerRun k
        = (List.range (max_frames_to_discard + 1)).map CaptureResult.video
            ++ (((List.range k).drop (max_frames_to_discard + 1)).map .video ++ [.none]) := by
      unfold producerRun
      conv_lhs => rw [← List.take_append_drop (max_frames_to_discard + 1) (List.range k)]
      rw [List.take_range, Nat.min_eq_left h7, List.map_append, List.append_assoc]
    have hrcv : receive_ndi_frames (producerRun k)
        = some { delivered := s'.latest_video_frame, discardReleased := s'.released,
                 releasedOther := s'.releasedOther, errored := false,
                 consumed := (List.range (max_frames_to_discard + 1)).length } := by
      unfold receive_ndi_frames
      rw [hsplit, hrun]
      rfl
    simp only [initState, List.nil_append, Option.toList_none, List.append_nil] at hacct
    have hoth' : s'.releasedOther = [] := by simpa [initState] using hoth
    have hlast' : s'.latest_video_frame = some max_frames_to_discard := by
      rw [hlast, range_getLast?]
      rfl
    have hrel : s'.released = List.range max_frames_to_discard := by
      have h2 : List.range (max_frames_to_discard + 1)
          = List.range max_frames_to_discard ++ [max_frames_to_discard] :=
        List.range_succ max_frames_to_discard
      have h3 : s'.released ++ [max_frames_to_discard]
          = List.range (max_frames_to_discard + 1) := by
        rw [← hacct, hlast']
        rfl
      rw [h2] at h3
      exact List.append_cancel_right h3
    have hk0 : k ≠ 0 := by omega
    refine ⟨_, hrcv, rfl, ?_, ?_, hoth', ?_⟩
    · rw [hrel]
      simp only [List.length_range, max_frames_to_discard] at hk ⊢
      omega
    · rw [hlast', if_neg hk0]
      have hmin : min (k - 1) max_frames_to_discard = max_frames_to_discard := by
        simp only [max_frames_to_discard] at hk ⊢
        omega
      rw [hmin]
    · simp only [List.length_range, max_frames_to_discard] at hk ⊢
      omega

end RustNdi

namespace RustNdi

/-- A sequence whose first n elements are all video frames splits
into those n frames and the rest. -/
theorem all_video_take (n : Nat) :
    ∀ inputs : List CaptureResult,
      (inputs.take n).all isVideo = true → n ≤ inputs.length →
      ∃ ids : List Nat, ids.length = n ∧ inputs = ids.map .video ++ inputs.drop n := by
  induction n with
  | zero => intro inputs _ _; exact ⟨[], rfl, by simp⟩
  | succ n ih =>
    intro inputs hall hlen
    cases inputs with
    | nil => simp at hlen
    | cons r rest =>
      rw [List.take_succ_cons, List.all_cons, Bool.and_eq_true] at hall
      obtain ⟨hr, hrest⟩ := hall
      cases r with
      | video v =>
        obtain ⟨ids, hl, he⟩ := ih rest hrest (by simp at hlen; omega)
        refine ⟨v :: ids, by simp [hl], ?_⟩
        rw [List.drop_succ_cons, List.map_cons, List.cons_append, ← he]
      | audio a => simp [isVideo] at hr
      | metadata m => simp [isVideo] at hr
      | none => simp [isVideo] at hr
      | err => simp [isVideo] at hr

/-- Claim C5: if the producer supplies video frames without
exhaustion — the first max_frames_to_discard + 1 capture results are
all video frames — the drain loop still terminates within the tick:
it makes exactly max_frames_to_discard + 1 capture calls (a constant
determined by the discard bound), does not error, and delivers a
frame immediately, no matter what the producer would supply next. -/
theorem drain_terminates_under_flood (inputs : List CaptureResult)
    (hall : (inputs.take (max_frames_to_discard + 1)).all isVideo = true)
    (hlen : max_frames_to_discard + 1 ≤ inputs.length) :
    ∃ t, receive_ndi_frames inputs = some t
      ∧ t.consumed = max_frames_to_discard + 1
      ∧ t.errored = false
      ∧ t.delivered.isSome = true := by
  obtain ⟨ids, hl, he⟩ := all_video_take (max_frames_to_discard + 1) inputs hall hlen
  have hne : ids ≠ [] := by
    intro h
    rw [h] at hl
    simp at hl
  obtain ⟨s', hrun, hacct, hlast, hoth⟩ :=
    runLoop_overThreshold ids initState (inputs.drop (max_frames_to_discard + 1))
      hne (by simp [initState, hl])
  have hrcv : receive_ndi_frames inputs
      = some { delivered := s'.latest_video_frame, discardReleased := s'.released,
               releasedOther := s'.releasedOther, errored := false,
               consumed := ids.length } := by
    unfold receive_ndi_frames
    rw [he, hrun]
    rfl
  refine ⟨_, hrcv, by rw [hl], rfl, ?_⟩
  rw [hlast]
  exact List.getLast?_isSome.mpr hne

/-- Witness for claim C5 at a producer supplying eight video frames. -/
theorem drain_terminates_under_flood_witness :
    ∃ t, receive_ndi_frames ((List.range 8).map .video) = some t
      ∧ t.consumed = max_frames_to_discard + 1
      ∧ t.errored = false
      ∧ t.delivered.isSome = true :=
  drain_terminates_under_flood ((List.range 8).map .video) (by decide) (by decide)

end RustNdi

namespace RustNdi

/-- Claim C9: a successful capture result that is neither a video
frame nor `None` (audio or metadata, the catch-all arm) is silently
ignored: the loop continues, and the only state change is that the
frame itself is dropped immediately — the frame counter is not
incremented, the pending frame is not replaced, and the video-release
ledger is untouched. -/
theorem drain_ignores_other_results (s : LoopState) (a m : Nat) :
    (loopStep s (.audio a) = .cont { s with releasedOther := s.releasedOther ++ [a] }
      ∧ loopStep s (.metadata m) = .cont { s with releasedOther := s.releasedOther ++ [m] })
      ∧ ∀ s' : LoopState,
          loopStep s (.audio a) = .cont s' ∨ loopStep s (.metadata m) = .cont s' →
          s'.frame_count = s.frame_count ∧ s'.latest_video_frame = s.latest_video_frame
            ∧ s'.released = s.released ∧ s'.live = s.live := by
  refine ⟨⟨rfl, rfl⟩, ?_⟩
  intro s' h
  cases h with
  | inl h =>
    simp only [loopStep, StepOut.cont.injEq] at h
    subst h
    exact ⟨rfl, rfl, rfl, rfl⟩
  | inr h =>
    simp only [loopStep, StepOut.cont.injEq] at h
    subst h
    exact ⟨rfl, rfl, rfl, rfl⟩

/-- Claim C7: the discovery loop returns nothing while every snapshot
is empty (unbounded retry), and at the first iteration whose snapshot
is non-empty it stops and returns that snapshot's first source, in
enumeration order, whatever the ignored wait_for_sources results
were. -/
theorem discover_first_nonempty (pre post : List FinderIter) (it : FinderIter)
    (hpre : ∀ x ∈ pre, x.snapshot = []) :
    discoverLoop pre = Option.none
      ∧ ∀ (src : SourceDescriptor) (tl : List SourceDescriptor),
          it.snapshot = src :: tl →
          discoverLoop (pre ++ it :: post) = some src := by
  induction pre with
  | nil =>
    refine ⟨rfl, ?_⟩
    intro src tl hsnap
    simp [discoverLoop, hsnap]
  | cons x pre ih =>
    have hx : x.snapshot = [] := hpre x (List.mem_cons_self x pre)
    obtain ⟨ih1, ih2⟩ := ih (fun y hy => hpre y (List.mem_cons_of_mem x hy))
    constructor
    · simp [discoverLoop, hx, ih1]
    · intro src tl hsnap
      rw [List.cons_append]
      simp only [discoverLoop, hx]
      exact ih2 src tl hsnap

/-- Witness for claim C7: two empty snapshots, then a snapshot with
two sources. -/
theorem discover_first_nonempty_witness :
    discoverLoop [{ waitChanged := true, snapshot := [] },
                  { waitChanged := false, snapshot := [] }] = Option.none
      ∧ ∀ (src : SourceDescriptor) (tl : List SourceDescriptor),
          ({ waitChanged := true,
             snapshot := [{ name := "Cam", urlAddress := "10.0.0.2" },
                          { name := "Deck", urlAddress := "10.0.0.3" }] } : FinderIter).snapshot
            = src :: tl →
          discoverLoop ([{ waitChanged := true, snapshot := [] },
                         { waitChanged := false, snapshot := [] }]
              ++ { waitChanged := true,
                   snapshot := [{ name := "Cam", urlAddress := "10.0.0.2" },
                                { name := "Deck", urlAddress := "10.0.0.3" }] } :: [])
            = some src :=
  discover_first_nonempty
    [{ waitChanged := true, snapshot := [] }, { waitChanged := false, snapshot := [] }]
    []
    { waitChanged := true,
      snapshot := [{ name := "Cam", urlAddress := "10.0.0.2" },
                   { name := "Deck", urlAddress := "10.0.0.3" }] }
    (by decide)

/-- Counterexample to claim C8: the discovery loop of
setup_ndi_receiver has no cancellation check at all.  After fifty
iterations with empty snapshots — wait_for_sources even reporting a
change each time, the only signal a host could deliver through the
finder — the loop is still running; nothing between successive
wait_for_sources calls can stop it. -/
theorem discover_no_cancellation_counterexample :
    discoverLoop (List.replicate 50 { waitChanged := true, snapshot := [] })
      = Option.none := by
  decide

/-- Claim C8 (amended): the discovery loop checks no cancellation
condition between wait_for_sources calls; its only exit is a
non-empty snapshot, so while snapshots stay empty it loops
unboundedly and cancellation can only come from outside the
process's control flow. -/
theorem discover_loops_while_empty (l : List FinderIter)
    (h : ∀ x ∈ l, x.snapshot = []) :
    discoverLoop l = Option.none := by
  induction l with
  | nil => rfl
  | cons x rest ih =>
    have hx : x.snapshot = [] := h x (List.mem_cons_self x rest)
    simp only [discoverLoop, hx]
    exact ih (fun y hy => h y (List.mem_cons_of_mem x hy))

/-- Witness for the amended claim C8 at three empty iterations. -/
theorem discover_loops_while_empty_witness :
    discoverLoop (List.replicate 3 { waitChanged := false, snapshot := [] })
      = Option.none :=
  discover_loops_while_empty
    (List.replicate 3 { waitChanged := false, snapshot := [] }) (by decide)

/-- Claim C10: choose_source_dir returns the NDI_RUNTIME_DIR_V3 path
whenever that variable is set and the path it names exists; in every
other situation — variable unset, or set to a non-existing path — it
returns the manifest-local lib directory if that exists and `None`
otherwise, so the environment variable strictly takes precedence
over the local lib folder. -/
theorem choose_source_dir_spec (env : BuildEnv) :
    (∀ p, env.ndi_runtime_dir_v3 = some p → env.pathExists p = true →
        choose_source_dir env = some p)
      ∧ ((env.ndi_runtime_dir_v3 = Option.none
            ∨ ∃ p, env.ndi_runtime_dir_v3 = some p ∧ env.pathExists p = false) →
          choose_source_dir env
            = (if env.pathExists (pathJoin env.cargo_manifest_dir "lib")
               then some (pathJoin env.cargo_manifest_dir "lib")
               else Option.none)) := by
  constructor
  · intro p hp hex
    simp [choose_source_dir, hp, hex]
  · intro h
    cases h with
    | inl h0 => simp [choose_source_dir, h0]
    | inr h0 =>
      obtain ⟨p, hp, hex⟩ := h0
      simp [choose_source_dir, hp, hex]

/-- Witness for claim C10 in an environment where the variable is set
and its path exists. -/
theorem choose_source_dir_spec_witness :
    choose_source_dir { ndi_runtime_dir_v3 := some "/opt/ndi/lib",
                        cargo_manifest_dir := "/repo",
                        pathExists := fun _ => true } = some "/opt/ndi/lib" :=
  (choose_source_dir_spec
    { ndi_runtime_dir_v3 := some "/opt/ndi/lib", cargo_manifest_dir := "/repo",
      pathExists := fun _ => true }).1 "/opt/ndi/lib" rfl rfl

end RustNdi

namespace RustNdi

/-- Witness for the amended claim C2 at k = 9 (threshold exceeded). -/
theorem producerRun_spec_witness :
    ∃ t, receive_ndi_frames (producerRun 9) = some t
      ∧ t.errored = false
      ∧ t.discardReleased.length = min (9 - 1) max_frames_to_discard
      ∧ t.delivered = (if 9 = 0 then Option.none else some (min (9 - 1) max_frames_to_discard))
      ∧ t.releasedOther = []
      ∧ t.consumed = min (9 + 1) (max_frames_to_discard + 1) :=
  producerRun_spec 9

/-- Witness for claim C9 at the initial loop state with an audio
frame 4 and a metadata frame 9. -/
theorem drain_ignores_other_results_witness :
    (loopStep initState (.audio 4)
        = .cont { initState with releasedOther := initState.releasedOther ++ [4] }
      ∧ loopStep initState (.metadata 9)
          = .cont { initState with releasedOther := initState.releasedOther ++ [9] })
      ∧ ∀ s' : LoopState,
          loopStep initState (.audio 4) = .cont s'
            ∨ loopStep initState (.metadata 9) = .cont s' →
          s'.frame_count = initState.frame_count
            ∧ s'.latest_video_frame = initState.latest_video_frame
            ∧ s'.released = initState.released ∧ s'.live = initState.live :=
  drain_ignores_other_results initState 4 9

end RustNdi
